import Mathlib

/- Shallow embedding of the libmetal AMP demo client
   (src/common.h, src/shmem_latency_demo.c, src/libmetal_amp_demo.c).

   Pure data and control flow are translated directly from the C source.
   Device reads, the remote peer's replies, and the return values of the
   bulk shared-memory transfers are inputs supplied by an environment;
   every device access the code performs is recorded in an event trace so
   that claims about which I/O happens (and in which order) are statements
   about that trace. Machine integers are modelled as Nat with an explicit
   modulus where the C type can wrap. -/

namespace AmpDemo

/-- Modulus of the C type uint64_t (st_cnt, st_sum, st_min, st_max and the
average computation are uint64_t arithmetic). -/
def U64_MOD : Nat := 2 ^ 64

/-- TTC_CLK_FREQ_HZ from shmem_latency_demo.c. -/
def TTC_CLK_FREQ_HZ : Nat := 100000000

/-- NS_PER_SEC from shmem_latency_demo.c. -/
def NS_PER_SEC : Nat := 1000000000

/-- NS_PER_TTC_TICK = (NS_PER_SEC / TTC_CLK_FREQ_HZ) from shmem_latency_demo.c. -/
def NS_PER_TTC_TICK : Nat := NS_PER_SEC / TTC_CLK_FREQ_HZ

/-- TTC_CNT_APU_TO_RPU, the APU to RPU TTC counter ID. -/
def TTC_CNT_APU_TO_RPU : Nat := 2

/-- TTC_CNT_RPU_TO_APU, the RPU to APU TTC counter ID. -/
def TTC_CNT_RPU_TO_APU : Nat := 3

/-- SHM_DEMO_CNTRL_OFFSET, shared-memory offset of the demo status word. -/
def SHM_DEMO_CNTRL_OFFSET : Nat := 0x0

/-- SHM_BUFF_OFFSET_TX, shared-memory TX buffer start offset. -/
def SHM_BUFF_OFFSET_TX : Nat := 0x1000

/-- SHM_BUFF_OFFSET_RX, shared-memory RX buffer start offset. -/
def SHM_BUFF_OFFSET_RX : Nat := 0x2000

/-- DEMO_STATUS_IDLE from shmem_latency_demo.c. -/
def DEMO_STATUS_IDLE : Nat := 0x0

/-- DEMO_STATUS_START from shmem_latency_demo.c. -/
def DEMO_STATUS_START : Nat := 0x1

/-- ITERATIONS from shmem_latency_demo.c. -/
def ITERATIONS : Nat := 1000

/-- BUF_SIZE_MAX from shmem_latency_demo.c. -/
def BUF_SIZE_MAX : Nat := 4096

/-- PKG_SIZE_MIN from shmem_latency_demo.c. -/
def PKG_SIZE_MIN : Nat := 16

/-- PKG_SIZE_MAX from shmem_latency_demo.c. -/
def PKG_SIZE_MAX : Nat := 1024

/-- IPI_TRIG_OFFSET from common.h. -/
def IPI_TRIG_OFFSET : Nat := 0x0

/-- IPI_ISR_OFFSET from common.h. -/
def IPI_ISR_OFFSET : Nat := 0x10

/-- IPI_IER_OFFSET from common.h. -/
def IPI_IER_OFFSET : Nat := 0x18

/-- IPI_IDR_OFFSET from common.h. -/
def IPI_IDR_OFFSET : Nat := 0x1C

/-- IPI_MASK from common.h, the IPI mask for the kick from the RPU. -/
def IPI_MASK : Nat := 0x100

/-- Byte size of struct msg_hdr_s (two uint32_t fields: index and len). -/
def msg_hdr_size : Nat := 8

/-- Struct metal_stat from common.h: basic statistics over uint64_t samples. -/
structure metal_stat where
  st_cnt : Nat
  st_sum : Nat
  st_min : Nat
  st_max : Nat
deriving DecidableEq, Repr

/-- STAT_INIT from common.h: cnt 0, sum 0, min = (the C expression written
with a tilde) 0UL = 2^64 - 1, max 0. -/
def STAT_INIT : metal_stat :=
  { st_cnt := 0, st_sum := 0, st_min := U64_MOD - 1, st_max := 0 }

/-- Function update_stat from common.h: increment cnt, add val into sum (both
uint64_t, hence reduced mod 2^64), lower min and raise max when val passes
them. -/
def update_stat (pst : metal_stat) (val : Nat) : metal_stat :=
  { st_cnt := (pst.st_cnt + 1) % U64_MOD
    st_sum := (pst.st_sum + val) % U64_MOD
    st_min := if pst.st_min > val then val else pst.st_min
    st_max := if pst.st_max < val then val else pst.st_max }

/-- Run update_stat over a list of samples starting from STAT_INIT, the way
one size bucket of the measurement loop accumulates its statistics. -/
def run_stats (l : List Nat) : metal_stat :=
  l.foldl update_stat STAT_INIT

/-- Return values METAL_IRQ_HANDLED / METAL_IRQ_NOT_HANDLED of a libmetal
interrupt handler. -/
inductive IrqResult where
  | HANDLED
  | NOT_HANDLED
deriving DecidableEq, Repr

/-- An access to an IPI device register performed by the interrupt handler. -/
inductive RegEvent where
  | read (off : Nat) (val : Nat)
  | write (off : Nat) (val : Nat)
deriving DecidableEq, Repr

/-- Struct channel_s from shmem_latency_demo.c, restricted to the fields the
interrupt handler touches: the IPI mask of this peer and the notification
flag remote_nkicked (true = set, meaning nobody has kicked us yet). The
three metal_io_region handles are device identities replaced by the event
trace. -/
structure channel_s where
  ipi_mask : Nat
  remote_nkicked : Bool
deriving DecidableEq, Repr

/-- Function ipi_irq_handler from shmem_latency_demo.c. The priv argument is
the channel pointer (none models NULL); isrVal is the value the read of the
IPI interrupt status register returns. The result carries the handler's
return code, the register accesses it performed in order, and the channel
state after the call (none when priv was NULL). -/
def ipi_irq_handler (priv : Option channel_s) (isrVal : Nat) :
    IrqResult × List RegEvent × Option channel_s :=
  match priv with
  | none => (IrqResult.NOT_HANDLED, [], none)
  | some ch =>
    if isrVal &&& ch.ipi_mask ≠ 0 then
      (IrqResult.HANDLED,
       [RegEvent.read IPI_ISR_OFFSET isrVal,
        RegEvent.write IPI_ISR_OFFSET ch.ipi_mask],
       some { ch with remote_nkicked := false })
    else
      (IrqResult.NOT_HANDLED, [RegEvent.read IPI_ISR_OFFSET isrVal], some ch)

/-- Environment of one iteration of the measurement loop: writeRet is the
byte count metal_io_block_write reports, readRet the byte count
metal_io_block_read reports (the source never inspects it), lbufLen the
value of the len field found in the local buffer header after the block
read (when readRet = 0 the buffer is unchanged, so lbufLen is the len of
the message just sent, size minus msg_hdr_size; when the read copies the
whole reply it is the remote's len field), and a2rTicks / r2aTicks the
values the two TTC counter reads return. -/
structure IterEnv where
  writeRet : Nat
  readRet : Nat
  lbufLen : Nat
  a2rTicks : Nat
  r2aTicks : Nat
deriving DecidableEq, Repr

/-- A device access performed by the measurement session, in program order. -/
inductive IoEvent where
  | ttcReset (cnt : Nat)
  | ttcStop (cnt : Nat)
  | ttcRead (cnt : Nat) (val : Nat)
  | shmWrite32 (off : Nat) (val : Nat)
  | shmBlockWrite (off : Nat) (len : Nat) (ret : Nat)
  | shmBlockRead (off : Nat) (len : Nat) (ret : Nat)
  | ipiWrite32 (off : Nat) (val : Nat)
  | waitNotified
  | irqRegister
  | irqEnableVec
  | irqDisableVec
  | irqUnregister
deriving DecidableEq, Repr

/-- One pass of the inner loop body of measure_shmem_latency (source lines
196 to 232) at message size s and iteration index i: reset the APU to RPU
timer, write header plus payload of s bytes to the TX zone, abort when the
write did not transfer s bytes, kick the IPI, wait for the notification,
block-read s bytes from the RX zone (its return value is not checked),
abort when the len field now in the buffer differs from s - msg_hdr_size,
stop the RPU to APU timer, read both timers and update both statistics.
Returns the events performed and (some updated stats) on success or none
on abort. -/
def iter_body (s i : Nat) (env : IterEnv) (a2r r2a : metal_stat) :
    List IoEvent × Option (metal_stat × metal_stat) :=
  let evs0 := [IoEvent.ttcReset TTC_CNT_APU_TO_RPU,
               IoEvent.shmBlockWrite SHM_BUFF_OFFSET_TX s env.writeRet]
  if env.writeRet ≠ s then (evs0, none)
  else
    let evs1 := evs0 ++ [IoEvent.ipiWrite32 IPI_TRIG_OFFSET IPI_MASK,
                         IoEvent.waitNotified,
                         IoEvent.shmBlockRead SHM_BUFF_OFFSET_RX s env.readRet]
    if env.lbufLen ≠ s - msg_hdr_size then (evs1, none)
    else
      (evs1 ++ [IoEvent.ttcStop TTC_CNT_RPU_TO_APU,
                IoEvent.ttcRead TTC_CNT_APU_TO_RPU env.a2rTicks,
                IoEvent.ttcRead TTC_CNT_RPU_TO_APU env.r2aTicks],
       some (update_stat a2r env.a2rTicks, update_stat r2a env.r2aTicks))

/-- The inner for loop of measure_shmem_latency (for i = 1 up to ITERATIONS),
given an environment per iteration index: i is the current index,
remaining the number of iterations still to run, a2r and r2a the two
accumulators. On the first aborting body the loop stops and yields none,
exactly like the goto out of the source. -/
def iter_loop (s : Nat) (env : Nat → IterEnv) :
    Nat → Nat → metal_stat → metal_stat →
    List IoEvent × Option (metal_stat × metal_stat)
  | _, 0, a2r, r2a => ([], some (a2r, r2a))
  | i, n + 1, a2r, r2a =>
    match iter_body s i (env i) a2r r2a with
    | (evs, none) => (evs, none)
    | (evs, some (a2r', r2a')) =>
      let rest := iter_loop s env (i + 1) n a2r' r2a'
      (evs ++ rest.1, rest.2)

/-- The sequence of sizes visited by the outer for loop of
measure_shmem_latency (for s = PKG_SIZE_MIN while s is at most
PKG_SIZE_MAX, doubling s), written with fuel so the translation stays
total; 64 doublings of a size_t cover every reachable value. -/
def size_seq (s : Nat) : Nat → List Nat
  | 0 => []
  | n + 1 => if s ≤ PKG_SIZE_MAX then s :: size_seq (s * 2) n else []

/-- One per-size report as printed by measure_shmem_latency lines 236 to 242:
the raw accumulators of both directions and the two averages, each computed
as st_sum * NS_PER_TTC_TICK / ITERATIONS in uint64_t arithmetic (the
product reduced mod 2^64). -/
structure Report where
  size : Nat
  a2r : metal_stat
  r2a : metal_stat
  a2rAvg : Nat
  r2aAvg : Nat
deriving DecidableEq, Repr

/-- Build the report measure_shmem_latency prints for one completed size. -/
def mkReport (s : Nat) (a2r r2a : metal_stat) : Report :=
  { size := s, a2r := a2r, r2a := r2a
    a2rAvg := a2r.st_sum * NS_PER_TTC_TICK % U64_MOD / ITERATIONS
    r2aAvg := r2a.st_sum * NS_PER_TTC_TICK % U64_MOD / ITERATIONS }

/-- The outer size loop of measure_shmem_latency: for each size run the
iteration loop from fresh STAT_INIT accumulators; on abort stop at once
and report completed = false; on success of a size append its report.
Returns (events, reports of completed sizes, completed). -/
def size_loop (env : Nat → Nat → IterEnv) : List Nat →
    List IoEvent × List Report × Bool
  | [] => ([], [], true)
  | s :: rest =>
    let r := iter_loop s (env s) 1 ITERATIONS STAT_INIT STAT_INIT
    match r.2 with
    | none => (r.1, [], false)
    | some (a2r, r2a) =>
      let tail := size_loop env rest
      (r.1 ++ tail.1, mkReport s a2r r2a :: tail.2.1, tail.2.2)

/-- Result of one call to measure_shmem_latency: the returned status, the
device accesses in program order, the per-size reports emitted, and
whether metal_free_memory was reached for the scratch buffer. -/
structure SessionOut where
  ret : Int
  events : List IoEvent
  reports : List Report
  freed : Bool
deriving DecidableEq, Repr

/-- Function measure_shmem_latency from shmem_latency_demo.c. allocOk says
whether metal_allocate_memory returned a buffer; on failure the function
returns -1 before any device access. Otherwise it writes DEMO_STATUS_START
to the control word, runs the size loop, and on the fall-through path also
writes 0 to the control word and kicks the IPI once more. Both the
fall-through path and the goto out abort path end at the out label, which
frees the scratch buffer and executes the statement return 0 of source
line 254 - so ret is 0 whenever allocation succeeded, aborted or not. -/
def measure_shmem_latency (allocOk : Bool) (env : Nat → Nat → IterEnv) :
    SessionOut :=
  if !allocOk then { ret := -1, events := [], reports := [], freed := false }
  else
    let startEv := IoEvent.shmWrite32 SHM_DEMO_CNTRL_OFFSET DEMO_STATUS_START
    let r := size_loop env (size_seq PKG_SIZE_MIN 64)
    if r.2.2 then
      { ret := 0
        events := startEv :: r.1 ++
          [IoEvent.shmWrite32 SHM_DEMO_CNTRL_OFFSET 0,
           IoEvent.ipiWrite32 IPI_TRIG_OFFSET IPI_MASK]
        reports := r.2.1
        freed := true }
    else
      { ret := 0, events := startEv :: r.1, reports := r.2.1, freed := true }

/-- Function shmem_latency_demo from shmem_latency_demo.c, from the point
where the three device regions were obtained (their acquisition is
platform bring-up outside the measurement core): initialize the flag,
disable the IPI interrupt, clear stale status, register and enable the
IRQ, enable the IPI interrupt, run measure_shmem_latency, then disable
the IPI interrupt and disable and unregister the IRQ. Returns the status
measure_shmem_latency returned together with the combined trace. -/
def shmem_latency_demo (allocOk : Bool) (env : Nat → Nat → IterEnv) :
    Int × List IoEvent :=
  let pre := [IoEvent.ipiWrite32 IPI_IDR_OFFSET IPI_MASK,
              IoEvent.ipiWrite32 IPI_ISR_OFFSET IPI_MASK,
              IoEvent.irqRegister,
              IoEvent.irqEnableVec,
              IoEvent.ipiWrite32 IPI_IER_OFFSET IPI_MASK]
  let m := measure_shmem_latency allocOk env
  let post := [IoEvent.ipiWrite32 IPI_IDR_OFFSET IPI_MASK,
               IoEvent.irqDisableVec,
               IoEvent.irqUnregister]
  (m.ret, pre ++ m.events ++ post)

/-- Value carried by an event when it is a 32-bit write to the shared-memory
control word, none otherwise. -/
def cntrlWrite : IoEvent → Option Nat
  | IoEvent.shmWrite32 off v =>
    if off = SHM_DEMO_CNTRL_OFFSET then some v else none
  | _ => none

/-- Last value written to the shared-memory control word over a trace, the
state the control word is left in (none when it was never written). -/
def finalCntrl (evs : List IoEvent) : Option Nat :=
  (evs.filterMap cntrlWrite).getLast?

/-- Controller semantics of one event for the IPI_MASK enable bit: a write to
the enable register with the mask bit set enables it, a write to the
disable register with the mask bit set disables it, everything else leaves
it alone. -/
def ipiStep (b : Bool) (e : IoEvent) : Bool :=
  match e with
  | IoEvent.ipiWrite32 off v =>
    if off = IPI_IER_OFFSET ∧ v &&& IPI_MASK ≠ 0 then true
    else if off = IPI_IDR_OFFSET ∧ v &&& IPI_MASK ≠ 0 then false
    else b
  | _ => b

/-- Whether the IPI interrupt for IPI_MASK is enabled after a trace, folding
ipiStep from an arbitrary initial state b0. -/
def ipi_mask_enabled (b0 : Bool) (evs : List IoEvent) : Bool :=
  evs.foldl ipiStep b0

/-- State visible to wait_for_notified from common.h: the notification flag
(an atomic_flag, true = set) and whether the calling context's interrupts
are enabled. -/
structure WaitState where
  flag : Bool
  irqOn : Bool
deriving DecidableEq, Repr

/-- One pass of the do-while body of wait_for_notified: save and disable
interrupts, atomically test-and-set the flag observing its old value, and
on observing it clear restore interrupts and break; otherwise
wait-for-interrupt, restore interrupts, and go around again. Returns
(broke out, observed old flag, state at end of the pass). -/
def wait_pass (st : WaitState) : Bool × Bool × WaitState :=
  let saved := st.irqOn
  let st1 : WaitState := { st with irqOn := false }
  let old := st1.flag
  let st2 : WaitState := { st1 with flag := true }
  if !old then (true, old, { st2 with irqOn := saved })
  else (false, old, { st2 with irqOn := saved })

/-- The do-while loop of wait_for_notified, driven by the list of external
events between passes: kicks gives, for each window in which interrupts
are enabled again, whether the remote's doorbell fired and the interrupt
handler cleared the flag. Returns some final state when a pass broke out,
none when the event list is exhausted first (the unbounded stall the
source permits). -/
def wait_run : WaitState → List Bool → Option WaitState
  | st, kicks =>
    match wait_pass st with
    | (true, _, st') => some st'
    | (false, _, st') =>
      match kicks with
      | [] => none
      | k :: rest =>
        let st'' := if k ∧ st'.irqOn then { st' with flag := false } else st'
        wait_run st'' rest

/-- Consecutive iteration indices starting at i, n of them, mirroring the
index variable of the inner for loop. -/
def iter_idx : Nat → Nat → List Nat
  | _, 0 => []
  | i, n + 1 => i :: iter_idx (i + 1) n

/-- The list of samples one direction of one size bucket feeds to
update_stat: the timer value of each iteration index 1 up to ITERATIONS. -/
def bucket_samples (en : Nat → IterEnv) (proj : IterEnv → Nat) : List Nat :=
  (iter_idx 1 ITERATIONS).map (fun j => proj (en j))

/-- An environment in which every transfer behaves: the block write reports
the full size, the block read copies the whole reply and the reply's len
field is the sent one echoed back, and the timers read 3 and 4 ticks. -/
def envAllGood : Nat → Nat → IterEnv :=
  fun s _ => { writeRet := s, readRet := s, lbufLen := s - msg_hdr_size
               a2rTicks := 3, r2aTicks := 4 }

/-- An environment in which the very first block write reports 0 bytes
transferred. -/
def envWriteFail : Nat → Nat → IterEnv :=
  fun _ _ => { writeRet := 0, readRet := 0, lbufLen := 0
               a2rTicks := 0, r2aTicks := 0 }

/-- An environment in which every block write succeeds but every block read
reports 0 bytes transferred; a 0-byte read leaves the local buffer exactly
as the preceding write left it, so the len field found there is still
s - msg_hdr_size. -/
def envShortRead : Nat → Nat → IterEnv :=
  fun s _ => { writeRet := s, readRet := 0, lbufLen := s - msg_hdr_size
               a2rTicks := 5, r2aTicks := 7 }

/-- C10: invoked with a NULL channel context pointer, ipi_irq_handler
returns METAL_IRQ_NOT_HANDLED, performs no device register access, and
touches no notification flag. -/
theorem c10_null_channel_not_handled (isrVal : Nat) :
    ipi_irq_handler none isrVal = (IrqResult.NOT_HANDLED, [], none) := rfl

/-- C2: with a non-null channel, if the status register value has the
channel's mask bit set the handler reads the status register, writes
exactly the channel's mask back to it, clears the notification flag and
returns METAL_IRQ_HANDLED; if the bit is clear it performs only the read,
changes nothing, and returns METAL_IRQ_NOT_HANDLED. -/
theorem c2_ipi_irq_handler_correct (ch : channel_s) (isrVal : Nat) :
    (isrVal &&& ch.ipi_mask ≠ 0 →
      ipi_irq_handler (some ch) isrVal =
        (IrqResult.HANDLED,
         [RegEvent.read IPI_ISR_OFFSET isrVal,
          RegEvent.write IPI_ISR_OFFSET ch.ipi_mask],
         some { ch with remote_nkicked := false })) ∧
    (isrVal &&& ch.ipi_mask = 0 →
      ipi_irq_handler (some ch) isrVal =
        (IrqResult.NOT_HANDLED,
         [RegEvent.read IPI_ISR_OFFSET isrVal], some ch)) := by
  constructor <;> intro h <;> simp [ipi_irq_handler, h]

/-- Witness for C2 at mask 0x100 with status value 0x100 (bit set) and
status value 0 (bit clear). -/
theorem c2_ipi_irq_handler_correct_witness :
    ipi_irq_handler (some ⟨0x100, true⟩) 0x100 =
      (IrqResult.HANDLED,
       [RegEvent.read IPI_ISR_OFFSET 0x100,
        RegEvent.write IPI_ISR_OFFSET 0x100],
       some ⟨0x100, false⟩) ∧
    ipi_irq_handler (some ⟨0x100, true⟩) 0 =
      (IrqResult.NOT_HANDLED,
       [RegEvent.read IPI_ISR_OFFSET 0], some ⟨0x100, true⟩) :=
  ⟨(c2_ipi_irq_handler_correct ⟨0x100, true⟩ 0x100).1 (by decide),
   (c2_ipi_irq_handler_correct ⟨0x100, true⟩ 0).2 (by decide)⟩

/-- C8: when allocation of the scratch buffer fails, measure_shmem_latency
returns the non-zero status -1 and performs no device access at all: the
control word is never written, nothing is block-written, and the doorbell
is never triggered. -/
theorem c8_alloc_failure_no_io (env : Nat → Nat → IterEnv) :
    (measure_shmem_latency false env).ret = -1 ∧
    (measure_shmem_latency false env).ret ≠ 0 ∧
    (measure_shmem_latency false env).events = [] :=
  ⟨rfl, by show (-1 : Int) ≠ 0; decide, rfl⟩

/-- C1 (code bug): with the first block write reporting 0 of the requested
16 bytes, measure_shmem_latency does abort the size bucket at once (the
trace stops right after the failing write and no report is emitted) and
does free the scratch buffer, but it returns 0, not a non-zero status:
the source sets ret to -1 and jumps to out, yet the out label ends in the
statement return 0, contradicting the function's own doc comment (0 on
success, error code if failure). -/
theorem c1_measure_returns_zero_on_write_mismatch :
    measure_shmem_latency true envWriteFail =
      { ret := 0
        events := [IoEvent.shmWrite32 SHM_DEMO_CNTRL_OFFSET DEMO_STATUS_START,
                   IoEvent.ttcReset TTC_CNT_APU_TO_RPU,
                   IoEvent.shmBlockWrite SHM_BUFF_OFFSET_TX 16 0]
        reports := []
        freed := true } := by rfl

/-- Counterexample to C3 as stated: in a session whose first block write
fails, the last value written to the shared-memory control word is
DEMO_STATUS_START, not the idle value - the abort path jumps over the
write of 0 at source line 246, so teardown does not leave the control
word idle. -/
theorem c3_abort_leaves_control_started :
    finalCntrl (shmem_latency_demo true envWriteFail).2 = some DEMO_STATUS_START ∧
    DEMO_STATUS_START ≠ DEMO_STATUS_IDLE ∧
    ¬ finalCntrl (shmem_latency_demo true envWriteFail).2 = some DEMO_STATUS_IDLE := by
  refine ⟨by rfl, by decide, ?_⟩
  intro h
  rw [show finalCntrl (shmem_latency_demo true envWriteFail).2
        = some DEMO_STATUS_START from rfl] at h
  exact absurd (Option.some.inj h) (by decide)

/-- Counterexample to C4 as stated: at size 16 the block read reports 0 of
the requested 16 bytes (so the transfer is short), yet the iteration does
not abort - it records a sample in both accumulators - because the source
never checks the return value of metal_io_block_read and a 0-byte read
leaves the just-sent header, whose len field still matches, in the local
buffer. -/
theorem c4_short_read_not_detected :
    (envShortRead 16 1).readRet < 16 ∧
    (iter_body 16 1 (envShortRead 16 1) STAT_INIT STAT_INIT).2 =
      some (update_stat STAT_INIT 5, update_stat STAT_INIT 7) :=
  ⟨by decide, rfl⟩

/-- C4 amended: the iteration aborts exactly when the block write reports a
byte count other than the message size or the len field found in the
buffer after the read differs from size minus header size; the byte count
the block read reports is never consulted, so a short read on its own
does not abort the iteration. -/
theorem c4_abort_iff_mismatch (s i : Nat) (env : IterEnv) (a2r r2a : metal_stat) :
    ((iter_body s i env a2r r2a).2 = none ↔
      (env.writeRet ≠ s ∨ env.lbufLen ≠ s - msg_hdr_size)) ∧
    (∀ r, (iter_body s i { env with readRet := r } a2r r2a).2 =
      (iter_body s i env a2r r2a).2) := by
  constructor
  · unfold iter_body
    split
    · simp_all
    · split <;> simp_all
  · intro r
    unfold iter_body
    simp [apply_ite Prod.snd]

theorem wait_pass_eq (st : WaitState) :
    wait_pass st = (!st.flag, st.flag, ⟨true, st.irqOn⟩) := by
  cases st with
  | mk f q => cases f <;> rfl

theorem wait_run_break (st : WaitState) (kicks : List Bool) (h : st.flag = false) :
    wait_run st kicks = some ⟨true, st.irqOn⟩ := by
  cases kicks <;> simp [wait_run, wait_pass_eq, h]

theorem wait_run_spin_nil (st : WaitState) (h : st.flag = true) :
    wait_run st [] = none := by
  simp [wait_run, wait_pass_eq, h]

theorem wait_run_spin_cons (st : WaitState) (h : st.flag = true) (k : Bool)
    (rest : List Bool) :
    wait_run st (k :: rest) =
      wait_run (if k ∧ st.irqOn then ⟨false, st.irqOn⟩ else ⟨true, st.irqOn⟩)
        rest := by
  conv_lhs => rw [wait_run]
  rw [wait_pass_eq, h]
  simp

/-- C9: whenever the blocking wait on the notification flag returns, the
breaking pass observed the flag cleared, the flag is set again
(test-and-set re-armed it) at the moment of return, and the interrupt
enable state saved on entry has been restored; moreover every single pass
restores the saved interrupt state and leaves the flag set, so each
iteration's doorbell ring happens with the flag already set without an
explicit arm step. -/
theorem c9_wait_for_notified_postcondition (st : WaitState) (kicks : List Bool)
    (st' : WaitState) (h : wait_run st kicks = some st') :
    st'.flag = true ∧ st'.irqOn = st.irqOn ∧
    (wait_pass st).2.2.flag = true ∧
    (wait_pass st).2.2.irqOn = st.irqOn ∧
    ((wait_pass st).1 = true ↔ st.flag = false) := by
  have hmain : ∀ (ks : List Bool) (s0 s1 : WaitState),
      wait_run s0 ks = some s1 → s1.flag = true ∧ s1.irqOn = s0.irqOn := by
    intro ks
    induction ks with
    | nil =>
      intro s0 s1 h0
      cases hf : s0.flag with
      | false =>
        rw [wait_run_break s0 [] hf] at h0
        cases h0
        exact ⟨rfl, rfl⟩
      | true =>
        rw [wait_run_spin_nil s0 hf] at h0
        cases h0
    | cons k rest ih =>
      intro s0 s1 h0
      cases hf : s0.flag with
      | false =>
        rw [wait_run_break s0 (k :: rest) hf] at h0
        cases h0
        exact ⟨rfl, rfl⟩
      | true =>
        rw [wait_run_spin_cons s0 hf k rest] at h0
        have h1 := ih _ s1 h0
        refine ⟨h1.1, ?_⟩
        rw [h1.2]
        split <;> rfl
  refine ⟨(hmain kicks st st' h).1, (hmain kicks st st' h).2, ?_, ?_, ?_⟩
  · rw [wait_pass_eq]
  · rw [wait_pass_eq]
  · rw [wait_pass_eq]
    cases st.flag <;> simp

/-- Witness for C9: from a cleared flag with interrupts enabled and no
external kicks, the wait returns at once with the flag re-armed and the
interrupt state restored. -/
theorem c9_wait_for_notified_postcondition_witness :
    (⟨true, true⟩ : WaitState).flag = true ∧
    (⟨true, true⟩ : WaitState).irqOn = (⟨false, true⟩ : WaitState).irqOn ∧
    (wait_pass ⟨false, true⟩).2.2.flag = true ∧
    (wait_pass ⟨false, true⟩).2.2.irqOn = (⟨false, true⟩ : WaitState).irqOn ∧
    ((wait_pass ⟨false, true⟩).1 = true ↔
      (⟨false, true⟩ : WaitState).flag = false) :=
  c9_wait_for_notified_postcondition ⟨false, true⟩ [] ⟨true, true⟩ rfl

theorem update_stat_cnt (a : metal_stat) (v : Nat) (h : a.st_cnt + 1 < U64_MOD) :
    (update_stat a v).st_cnt = a.st_cnt + 1 := by
  simp [update_stat, Nat.mod_eq_of_lt h]

theorem update_stat_sum (a : metal_stat) (v : Nat) (h : a.st_sum + v < U64_MOD) :
    (update_stat a v).st_sum = a.st_sum + v := by
  simp [update_stat, Nat.mod_eq_of_lt h]

theorem update_stat_min_le (a : metal_stat) (v : Nat) :
    (update_stat a v).st_min ≤ v ∧ (update_stat a v).st_min ≤ a.st_min := by
  simp only [update_stat]
  constructor <;> (split <;> omega)

theorem update_stat_max_ge (a : metal_stat) (v : Nat) :
    v ≤ (update_stat a v).st_max ∧ a.st_max ≤ (update_stat a v).st_max := by
  simp only [update_stat]
  constructor <;> (split <;> omega)

theorem stat_cnt_foldl (l : List Nat) :
    ∀ (a : metal_stat), a.st_cnt + l.length < U64_MOD →
      (l.foldl update_stat a).st_cnt = a.st_cnt + l.length := by
  induction l with
  | nil => intro a _; simp
  | cons x xs ih =>
    intro a h
    simp only [List.length_cons] at h
    have hlt : a.st_cnt + 1 < U64_MOD := by omega
    rw [List.foldl_cons,
        ih (update_stat a x) (by rw [update_stat_cnt a x hlt]; omega),
        update_stat_cnt a x hlt]
    simp only [List.length_cons]
    omega

theorem stat_sum_foldl (l : List Nat) :
    ∀ (a : metal_stat), a.st_sum + l.sum < U64_MOD →
      (l.foldl update_stat a).st_sum = a.st_sum + l.sum := by
  induction l with
  | nil => intro a _; simp
  | cons x xs ih =>
    intro a h
    simp only [List.sum_cons] at h
    have hlt : a.st_sum + x < U64_MOD := by omega
    rw [List.foldl_cons,
        ih (update_stat a x) (by rw [update_stat_sum a x hlt]; omega),
        update_stat_sum a x hlt]
    simp only [List.sum_cons]
    omega

theorem stat_min_foldl_le (l : List Nat) :
    ∀ (a : metal_stat), (l.foldl update_stat a).st_min ≤ a.st_min := by
  induction l with
  | nil => intro a; simp
  | cons x xs ih =>
    intro a
    rw [List.foldl_cons]
    exact le_trans (ih (update_stat a x)) (update_stat_min_le a x).2

theorem stat_max_foldl_ge (l : List Nat) :
    ∀ (a : metal_stat), a.st_max ≤ (l.foldl update_stat a).st_max := by
  induction l with
  | nil => intro a; simp
  | cons x xs ih =>
    intro a
    rw [List.foldl_cons]
    exact le_trans (update_stat_max_ge a x).2 (ih (update_stat a x))

theorem stat_min_le_mem (l : List Nat) :
    ∀ (a : metal_stat) (x : Nat), x ∈ l → (l.foldl update_stat a).st_min ≤ x := by
  induction l with
  | nil => intro a x hx; cases hx
  | cons y ys ih =>
    intro a x hx
    rw [List.foldl_cons]
    rcases List.mem_cons.mp hx with h | h
    · subst h
      exact le_trans (stat_min_foldl_le ys (update_stat a x))
        (update_stat_min_le a x).1
    · exact ih (update_stat a y) x h

theorem stat_max_ge_mem (l : List Nat) :
    ∀ (a : metal_stat) (x : Nat), x ∈ l → x ≤ (l.foldl update_stat a).st_max := by
  induction l with
  | nil => intro a x hx; cases hx
  | cons y ys ih =>
    intro a x hx
    rw [List.foldl_cons]
    rcases List.mem_cons.mp hx with h | h
    · subst h
      exact le_trans (update_stat_max_ge a x).1
        (stat_max_foldl_ge ys (update_stat a x))
    · exact ih (update_stat a y) x h

theorem stat_min_mem_or (l : List Nat) :
    ∀ (a : metal_stat),
      (l.foldl update_stat a).st_min = a.st_min ∨
      (l.foldl update_stat a).st_min ∈ l := by
  induction l with
  | nil => intro a; exact Or.inl rfl
  | cons y ys ih =>
    intro a
    rw [List.foldl_cons]
    rcases ih (update_stat a y) with h | h
    · rw [h]
      simp only [update_stat]
      split
      · exact Or.inr (List.mem_cons_self y ys)
      · exact Or.inl rfl
    · exact Or.inr (List.mem_cons_of_mem y h)

theorem stat_max_mem_or (l : List Nat) :
    ∀ (a : metal_stat),
      (l.foldl update_stat a).st_max = a.st_max ∨
      (l.foldl update_stat a).st_max ∈ l := by
  induction l with
  | nil => intro a; exact Or.inl rfl
  | cons y ys ih =>
    intro a
    rw [List.foldl_cons]
    rcases ih (update_stat a y) with h | h
    · rw [h]
      simp only [update_stat]
      split
      · exact Or.inr (List.mem_cons_self y ys)
      · exact Or.inl rfl
    · exact Or.inr (List.mem_cons_of_mem y h)

/-- C6: feeding K u64 samples through update_stat from STAT_INIT gives
count K, sum equal to the sum of the samples, a min below and a max above
every sample, and for a nonempty list min and max are themselves samples
(so they are the least and greatest sample; in particular after the first
sample min and max both equal it). -/
theorem c6_stats_invariant (l : List Nat) (hx : ∀ x ∈ l, x < U64_MOD)
    (hlen : l.length < U64_MOD) (hsum : l.sum < U64_MOD) :
    (run_stats l).st_cnt = l.length ∧
    (run_stats l).st_sum = l.sum ∧
    (∀ x ∈ l, (run_stats l).st_min ≤ x ∧ x ≤ (run_stats l).st_max) ∧
    (l ≠ [] → (run_stats l).st_min ∈ l ∧ (run_stats l).st_max ∈ l) := by
  refine ⟨?_, ?_, ?_, ?_⟩
  · have h := stat_cnt_foldl l STAT_INIT (by simpa [STAT_INIT] using hlen)
    simpa [run_stats, STAT_INIT] using h
  · have h := stat_sum_foldl l STAT_INIT (by simpa [STAT_INIT] using hsum)
    simpa [run_stats, STAT_INIT] using h
  · intro x hmem
    exact ⟨stat_min_le_mem l STAT_INIT x hmem, stat_max_ge_mem l STAT_INIT x hmem⟩
  · intro hne
    constructor
    · rcases stat_min_mem_or l STAT_INIT with h | h
      · obtain ⟨x0, hx0⟩ := List.exists_mem_of_ne_nil l hne
        have h1 : (run_stats l).st_min ≤ x0 := stat_min_le_mem l STAT_INIT x0 hx0
        have h2 : x0 < U64_MOD := hx x0 hx0
        have h3 : (run_stats l).st_min = U64_MOD - 1 := by
          simpa [STAT_INIT] using h
        have h4 : (run_stats l).st_min = x0 := by omega
        rw [h4]; exact hx0
      · exact h
    · rcases stat_max_mem_or l STAT_INIT with h | h
      · obtain ⟨x0, hx0⟩ := List.exists_mem_of_ne_nil l hne
        have h1 : x0 ≤ (run_stats l).st_max := stat_max_ge_mem l STAT_INIT x0 hx0
        have h3 : (run_stats l).st_max = 0 := by simpa [STAT_INIT] using h
        have h4 : (run_stats l).st_max = x0 := by omega
        rw [h4]; exact hx0
      · exact h

/-- Witness for C6 on the sample list [5, 3, 7]. -/
theorem c6_stats_invariant_witness :
    (run_stats [5, 3, 7]).st_cnt = ([5, 3, 7] : List Nat).length ∧
    (run_stats [5, 3, 7]).st_sum = ([5, 3, 7] : List Nat).sum ∧
    (∀ x ∈ ([5, 3, 7] : List Nat),
      (run_stats [5, 3, 7]).st_min ≤ x ∧ x ≤ (run_stats [5, 3, 7]).st_max) ∧
    (([5, 3, 7] : List Nat) ≠ [] →
      (run_stats [5, 3, 7]).st_min ∈ ([5, 3, 7] : List Nat) ∧
      (run_stats [5, 3, 7]).st_max ∈ ([5, 3, 7] : List Nat)) :=
  c6_stats_invariant [5, 3, 7] (by decide) (by decide) (by decide)

theorem iter_idx_length : ∀ (n i : Nat), (iter_idx i n).length = n := by
  intro n
  induction n with
  | zero => intro i; rfl
  | succ m ih => intro i; simp [iter_idx, ih]

theorem iter_body_eq_success (s i : Nat) (env : IterEnv) (a2r r2a : metal_stat)
    (hw : env.writeRet = s) (hl : env.lbufLen = s - msg_hdr_size) :
    iter_body s i env a2r r2a =
      ([IoEvent.ttcReset TTC_CNT_APU_TO_RPU,
        IoEvent.shmBlockWrite SHM_BUFF_OFFSET_TX s env.writeRet,
        IoEvent.ipiWrite32 IPI_TRIG_OFFSET IPI_MASK,
        IoEvent.waitNotified,
        IoEvent.shmBlockRead SHM_BUFF_OFFSET_RX s env.readRet,
        IoEvent.ttcStop TTC_CNT_RPU_TO_APU,
        IoEvent.ttcRead TTC_CNT_APU_TO_RPU env.a2rTicks,
        IoEvent.ttcRead TTC_CNT_RPU_TO_APU env.r2aTicks],
       some (update_stat a2r env.a2rTicks, update_stat r2a env.r2aTicks)) := by
  unfold iter_body
  rw [if_neg (by simp [hw]), if_neg (by simp [hl])]
  simp

theorem iter_loop_snd_success (en : Nat → IterEnv) (s : Nat)
    (h : ∀ j, (en j).writeRet = s ∧ (en j).lbufLen = s - msg_hdr_size) :
    ∀ (n i : Nat) (a2r r2a : metal_stat),
      (iter_loop s en i n a2r r2a).2 =
        some (((iter_idx i n).map (fun j => (en j).a2rTicks)).foldl update_stat a2r,
              ((iter_idx i n).map (fun j => (en j).r2aTicks)).foldl update_stat r2a) := by
  intro n
  induction n with
  | zero => intro i a2r r2a; simp [iter_loop, iter_idx]
  | succ m ih =>
    intro i a2r r2a
    simp only [iter_loop]
    rw [iter_body_eq_success s i (en i) a2r r2a (h i).1 (h i).2]
    simp only [iter_idx, List.map_cons, List.foldl_cons]
    exact ih (i + 1) (update_stat a2r (en i).a2rTicks)
      (update_stat r2a (en i).r2aTicks)

theorem size_loop_success (env : Nat → Nat → IterEnv)
    (h : ∀ s j, (env s j).writeRet = s ∧ (env s j).lbufLen = s - msg_hdr_size) :
    ∀ (sizes : List Nat),
      (size_loop env sizes).2.2 = true ∧
      (size_loop env sizes).2.1 = sizes.map (fun s =>
        mkReport s (run_stats (bucket_samples (env s) IterEnv.a2rTicks))
                   (run_stats (bucket_samples (env s) IterEnv.r2aTicks))) := by
  intro sizes
  induction sizes with
  | nil => exact ⟨rfl, rfl⟩
  | cons s rest ih =>
    simp only [size_loop]
    rw [iter_loop_snd_success (env s) s (h s) ITERATIONS 1 STAT_INIT STAT_INIT]
    simp only [List.map_cons]
    exact ⟨ih.1, by rw [ih.2]; rfl⟩

theorem measure_success_reports (env : Nat → Nat → IterEnv)
    (h : ∀ s j, (env s j).writeRet = s ∧ (env s j).lbufLen = s - msg_hdr_size) :
    (measure_shmem_latency true env).reports =
      (size_seq PKG_SIZE_MIN 64).map (fun s =>
        mkReport s (run_stats (bucket_samples (env s) IterEnv.a2rTicks))
                   (run_stats (bucket_samples (env s) IterEnv.r2aTicks))) := by
  have hc := size_loop_success env h (size_seq PKG_SIZE_MIN 64)
  simp only [measure_shmem_latency, Bool.not_true, Bool.false_eq_true,
    if_false, hc.1, if_true]
  exact hc.2

theorem measure_success_events (env : Nat → Nat → IterEnv)
    (h : ∀ s j, (env s j).writeRet = s ∧ (env s j).lbufLen = s - msg_hdr_size) :
    (measure_shmem_latency true env).events =
      IoEvent.shmWrite32 SHM_DEMO_CNTRL_OFFSET DEMO_STATUS_START ::
        (size_loop env (size_seq PKG_SIZE_MIN 64)).1 ++
        [IoEvent.shmWrite32 SHM_DEMO_CNTRL_OFFSET 0,
         IoEvent.ipiWrite32 IPI_TRIG_OFFSET IPI_MASK] := by
  have hc := size_loop_success env h (size_seq PKG_SIZE_MIN 64)
  simp only [measure_shmem_latency, Bool.not_true, Bool.false_eq_true,
    if_false, hc.1, if_true]

set_option maxRecDepth 10000 in
/-- C5: in a session with no transfer or protocol mismatch, the outer loop
visits exactly the sizes 16, 32, 64, 128, 256, 512, 1024 in that order;
each size's two accumulators are the fold of update_stat over exactly the
ITERATIONS = 1000 samples of that size starting from the fresh STAT_INIT
accumulator, so the statistics are reset before any sample of a size is
recorded, and each completed bucket has count 1000. -/
theorem c5_size_sweep_and_reset (env : Nat → Nat → IterEnv)
    (h : ∀ s j, (env s j).writeRet = s ∧ (env s j).lbufLen = s - msg_hdr_size) :
    (measure_shmem_latency true env).reports.map Report.size =
      [16, 32, 64, 128, 256, 512, 1024] ∧
    ITERATIONS = 1000 ∧
    (∀ r ∈ (measure_shmem_latency true env).reports,
      r.a2r = run_stats (bucket_samples (env r.size) IterEnv.a2rTicks) ∧
      r.r2a = run_stats (bucket_samples (env r.size) IterEnv.r2aTicks) ∧
      (bucket_samples (env r.size) IterEnv.a2rTicks).length = ITERATIONS ∧
      r.a2r.st_cnt = ITERATIONS) := by
  have hr := measure_success_reports env h
  refine ⟨?_, rfl, ?_⟩
  · rw [hr, List.map_map]
    rfl
  · intro r hmem
    rw [hr] at hmem
    obtain ⟨s, hs, hrs⟩ := List.mem_map.mp hmem
    have hsize : r.size = s := by rw [← hrs]; rfl
    have ha : r.a2r = run_stats (bucket_samples (env s) IterEnv.a2rTicks) := by
      rw [← hrs]; rfl
    have hb : r.r2a = run_stats (bucket_samples (env s) IterEnv.r2aTicks) := by
      rw [← hrs]; rfl
    have hlen : (bucket_samples (env s) IterEnv.a2rTicks).length = ITERATIONS := by
      simp [bucket_samples, iter_idx_length]
    refine ⟨by rw [hsize, ha], by rw [hsize, hb], by rw [hsize, hlen], ?_⟩
    rw [ha]
    have hcnt := stat_cnt_foldl (bucket_samples (env s) IterEnv.a2rTicks) STAT_INIT
      (by rw [hlen]; simp [STAT_INIT]; decide)
    rw [run_stats, hcnt, hlen]
    simp [STAT_INIT]

/-- Witness for C5 in the environment where every transfer behaves. -/
theorem c5_size_sweep_and_reset_witness :
    (measure_shmem_latency true envAllGood).reports.map Report.size =
      [16, 32, 64, 128, 256, 512, 1024] ∧
    ITERATIONS = 1000 ∧
    (∀ r ∈ (measure_shmem_latency true envAllGood).reports,
      r.a2r = run_stats (bucket_samples (envAllGood r.size) IterEnv.a2rTicks) ∧
      r.r2a = run_stats (bucket_samples (envAllGood r.size) IterEnv.r2aTicks) ∧
      (bucket_samples (envAllGood r.size) IterEnv.a2rTicks).length = ITERATIONS ∧
      r.a2r.st_cnt = ITERATIONS) :=
  c5_size_sweep_and_reset envAllGood (fun _ _ => ⟨rfl, rfl⟩)

/-- C7: the reported per-size average is st_sum * NS_PER_TTC_TICK /
ITERATIONS with NS_PER_TTC_TICK = 10, and when the bucket's statistics
come from a recorded sample list of length ITERATIONS whose scaled sum
does not overflow uint64_t, this equals the same exact integer formula
applied to the sample list directly, and also equals
sum_ticks * ns_per_tick / count for the accumulated count. -/
theorem c7_average_formula (s : Nat) (la lr : List Nat)
    (hla : la.length = ITERATIONS) (hlr : lr.length = ITERATIONS)
    (ha : la.sum * NS_PER_TTC_TICK < U64_MOD)
    (hb : lr.sum * NS_PER_TTC_TICK < U64_MOD) :
    NS_PER_TTC_TICK = 10 ∧
    (mkReport s (run_stats la) (run_stats lr)).a2rAvg =
      la.sum * NS_PER_TTC_TICK / la.length ∧
    (mkReport s (run_stats la) (run_stats lr)).r2aAvg =
      lr.sum * NS_PER_TTC_TICK / lr.length ∧
    (mkReport s (run_stats la) (run_stats lr)).a2rAvg =
      (run_stats la).st_sum * NS_PER_TTC_TICK / (run_stats la).st_cnt := by
  have hNS : NS_PER_TTC_TICK = 10 := rfl
  have h1 : la.sum < U64_MOD := by
    have hx := ha; rw [hNS] at hx; omega
  have h2 : lr.sum < U64_MOD := by
    have hx := hb; rw [hNS] at hx; omega
  have hs_la : (run_stats la).st_sum = la.sum := by
    have hx := stat_sum_foldl la STAT_INIT (by simp only [STAT_INIT]; omega)
    simpa [run_stats, STAT_INIT] using hx
  have hs_lr : (run_stats lr).st_sum = lr.sum := by
    have hx := stat_sum_foldl lr STAT_INIT (by simp only [STAT_INIT]; omega)
    simpa [run_stats, STAT_INIT] using hx
  have hc_la : (run_stats la).st_cnt = ITERATIONS := by
    have hx := stat_cnt_foldl la STAT_INIT
      (by simp only [STAT_INIT]; rw [hla]; decide)
    rw [run_stats] at *
    rw [hx, hla]
    simp [STAT_INIT]
  have havg_la : (mkReport s (run_stats la) (run_stats lr)).a2rAvg =
      la.sum * NS_PER_TTC_TICK / la.length := by
    show (run_stats la).st_sum * NS_PER_TTC_TICK % U64_MOD / ITERATIONS = _
    rw [hs_la, Nat.mod_eq_of_lt ha, hla]
  have havg_lr : (mkReport s (run_stats la) (run_stats lr)).r2aAvg =
      lr.sum * NS_PER_TTC_TICK / lr.length := by
    show (run_stats lr).st_sum * NS_PER_TTC_TICK % U64_MOD / ITERATIONS = _
    rw [hs_lr, Nat.mod_eq_of_lt hb, hlr]
  refine ⟨hNS, havg_la, havg_lr, ?_⟩
  rw [havg_la, hs_la, hc_la, hla]

set_option maxRecDepth 100000 in
/-- Witness for C7 on 1000 recorded samples of 5 ticks each. -/
theorem c7_average_formula_witness :
    NS_PER_TTC_TICK = 10 ∧
    (mkReport 16 (run_stats (List.replicate 1000 5))
        (run_stats (List.replicate 1000 5))).a2rAvg =
      (List.replicate 1000 5).sum * NS_PER_TTC_TICK /
        (List.replicate 1000 5).length ∧
    (mkReport 16 (run_stats (List.replicate 1000 5))
        (run_stats (List.replicate 1000 5))).r2aAvg =
      (List.replicate 1000 5).sum * NS_PER_TTC_TICK /
        (List.replicate 1000 5).length ∧
    (mkReport 16 (run_stats (List.replicate 1000 5))
        (run_stats (List.replicate 1000 5))).a2rAvg =
      (run_stats (List.replicate 1000 5)).st_sum * NS_PER_TTC_TICK /
        (run_stats (List.replicate 1000 5)).st_cnt :=
  c7_average_formula 16 (List.replicate 1000 5) (List.replicate 1000 5)
    (by rw [List.length_replicate]; rfl) (by rw [List.length_replicate]; rfl)
    (by decide) (by decide)

theorem cntrl_iter_body (s i : Nat) (env : IterEnv) (a2r r2a : metal_stat) :
    ((iter_body s i env a2r r2a).1).filterMap cntrlWrite = [] := by
  unfold iter_body
  split
  · simp [cntrlWrite]
  · split <;> simp [cntrlWrite]

theorem cntrl_iter_loop (en : Nat → IterEnv) (s : Nat) :
    ∀ (n i : Nat) (a2r r2a : metal_stat),
      ((iter_loop s en i n a2r r2a).1).filterMap cntrlWrite = [] := by
  intro n
  induction n with
  | zero => intro i a2r r2a; rfl
  | succ m ih =>
    intro i a2r r2a
    have hsplit := cntrl_iter_body s i (en i) a2r r2a
    simp only [iter_loop]
    cases hb : iter_body s i (en i) a2r r2a with
    | mk evs res =>
      rw [hb] at hsplit
      simp only at hsplit
      cases res with
      | none => simpa using hsplit
      | some p =>
        obtain ⟨a2r', r2a'⟩ := p
        simp [List.filterMap_append, hsplit, ih]

theorem cntrl_size_loop (env : Nat → Nat → IterEnv) :
    ∀ (sizes : List Nat),
      ((size_loop env sizes).1).filterMap cntrlWrite = [] := by
  intro sizes
  induction sizes with
  | nil => rfl
  | cons s rest ih =>
    have hl := cntrl_iter_loop (env s) s ITERATIONS 1 STAT_INIT STAT_INIT
    cases hr : (iter_loop s (env s) 1 ITERATIONS STAT_INIT STAT_INIT).2 with
    | none => simp [size_loop, hr, hl]
    | some p =>
      obtain ⟨a2r, r2a⟩ := p
      simp [size_loop, hr, List.filterMap_append, hl, ih]

theorem ipi_post_foldl (c : Bool) :
    List.foldl ipiStep c
      [IoEvent.ipiWrite32 IPI_IDR_OFFSET IPI_MASK,
       IoEvent.irqDisableVec, IoEvent.irqUnregister] = false := by
  cases c <;> decide

/-- C3 amended: teardown always leaves the IPI interrupt disabled before
shmem_latency_demo returns (the last IPI enable-state change in any trace
is the write of IPI_MASK to the disable register), but the control word is
left at the idle value only when the size loop completes without any
mismatch; an aborted session skips the idle write (see the
counterexample), so the idle guarantee needs the no-mismatch hypothesis. -/
theorem c3_teardown_amended (allocOk : Bool) (env : Nat → Nat → IterEnv)
    (b0 : Bool) :
    ipi_mask_enabled b0 (shmem_latency_demo allocOk env).2 = false ∧
    ((∀ s j, (env s j).writeRet = s ∧ (env s j).lbufLen = s - msg_hdr_size) →
      finalCntrl (shmem_latency_demo true env).2 = some DEMO_STATUS_IDLE) := by
  constructor
  · simp only [shmem_latency_demo, ipi_mask_enabled]
    rw [List.foldl_append, List.foldl_append]
    exact ipi_post_foldl _
  · intro hgood
    have hev := measure_success_events env hgood
    have hloop := cntrl_size_loop env (size_seq PKG_SIZE_MIN 64)
    simp only [shmem_latency_demo, finalCntrl]
    rw [hev]
    simp [List.filterMap_append, hloop, cntrlWrite]
    rfl

/-- Witness for C3 amended: a fully successful session ends with the IPI
interrupt disabled and the control word idle. -/
theorem c3_teardown_amended_witness :
    ipi_mask_enabled true (shmem_latency_demo true envAllGood).2 = false ∧
    finalCntrl (shmem_latency_demo true envAllGood).2 = some DEMO_STATUS_IDLE :=
  ⟨(c3_teardown_amended true envAllGood true).1,
   (c3_teardown_amended true envAllGood true).2 (fun _ _ => ⟨rfl, rfl⟩)⟩

end AmpDemo
